import Mathlib

/-!
Shallow embedding of the batch orchestration and knowledge-aggregation
engine of `src/backend/src/processor.ts` (with the agent stage contracts of
`src/backend/src/agent.ts` and the types of `src/backend/src/types.ts`).

External capability calls (the seven agent stages) are modelled as oracle
inputs to a batch: a batch either succeeds with a full set of stage
responses, or fails (any capability throw or schema-validation failure —
all mutations of the shared store happen in `applyOutputs`, which runs
strictly after every capability call of the batch, so any failure yields
the same net state effect). Timestamps are modelled as an abstract `Nat`
clock value passed in by the caller. The JS `Map`s (`peopleIndex`,
`topicIndex`) are modelled as insertion-ordered association lists with
JS-`Map` semantics: `set` on a present key replaces in place, on an absent
key appends.
-/

/-- One raw CSV record (`EmailRecord` in `types.ts`). -/
structure EmailRecord where
  file : String
  message : String
deriving DecidableEq, Repr

/-- The run phase of `ProcessingStatus.status`. -/
inductive Phase where
  | idle
  | running
  | completed
  | error
deriving DecidableEq, Repr

/-- `ProcessingStatus` from `types.ts`; timestamp fields hold abstract clock values. -/
structure ProcessingStatus where
  status : Phase
  startedAt : Option Nat
  completedAt : Option Nat
  lastBatchAt : Option Nat
  queued : Nat
  processed : Nat
  results : Nat
  errors : Nat
  batches : Nat
  message : Option String
deriving DecidableEq, Repr

/-- `PersonIndexEntry` from `types.ts`. -/
structure PersonIndexEntry where
  email : String
  name : Option String
  inferredRole : Option String
  messageCount : Nat
  topics : List String
deriving DecidableEq, Repr

/-- `TopicIndexEntry` from `types.ts`; confidence is an exact rational
(the source only ever stores the literal constants 0.5, 0.4, 0.75, 0.6 and
never computes with them). -/
structure TopicIndexEntry where
  topic : String
  latestSummary : String
  confidence : ℚ
  isNew : Bool
  isConflicting : Bool
  lastUpdatedAt : Nat
deriving DecidableEq, Repr

/-- `Conflict` from `types.ts`. -/
structure Conflict where
  topic : String
  description : String
deriving DecidableEq, Repr

/-- `InformationFlow` from `types.ts`; `from` is a Lean keyword, hence `from_`. -/
structure InformationFlow where
  from_ : String
  to_ : String
  topic : String
  intent : String
deriving DecidableEq, Repr

/-- `IngestionOutput` from `types.ts`: one parsed email. -/
structure IngestionOutput where
  from_ : String
  to_ : List String
  timestamp : String
  body : String
deriving DecidableEq, Repr

/-- The boolean decision vector of `TriageOutput.runAgents`. -/
structure RunAgents where
  knowledge : Bool
  stakeholder : Bool
  memory : Bool
  critic : Bool
deriving DecidableEq, Repr

/-- `TriageOutput` from `types.ts`. -/
structure TriageOutput where
  runAgents : RunAgents
  reasoning : String
deriving DecidableEq, Repr

/-- `KnowledgeOutput` from `types.ts`. -/
structure KnowledgeOutput where
  topics : List String
  decisions : List String
  facts : List String
deriving DecidableEq, Repr

/-- One element of `StakeholderOutput.stakeholders`; importance is one of
the schema strings low, medium, high, carried here as a plain string. -/
structure StakeholderEntry where
  email : String
  importance : String
  reason : String
deriving DecidableEq, Repr

/-- `StakeholderOutput` from `types.ts`. -/
structure StakeholderOutput where
  stakeholders : List StakeholderEntry
deriving DecidableEq, Repr

/-- The `changeType` field of a `MemoryUpdate`. -/
inductive ChangeType where
  | new
  | update
  | conflict
deriving DecidableEq, Repr

/-- `MemoryUpdate` from `types.ts`. -/
structure MemoryUpdate where
  topic : String
  changeType : ChangeType
  summary : String
deriving DecidableEq, Repr

/-- `MemoryOutput` from `types.ts`. -/
structure MemoryOutput where
  updates : List MemoryUpdate
deriving DecidableEq, Repr

/-- One element of `CriticOutput.conflicts`. -/
structure CriticConflict where
  topic : String
  description : String
  severity : String
deriving DecidableEq, Repr

/-- `CriticOutput` from `types.ts`. -/
structure CriticOutput where
  conflicts : List CriticConflict
deriving DecidableEq, Repr

/-- `CoordinatorOutput` from `types.ts`. -/
structure CoordinatorOutput where
  executiveBrief : String
  notify : List String
  priorityItems : List String
deriving DecidableEq, Repr

/-- Per-agent status inside a run snapshot (`AgentRunInfo.status`). -/
inductive AgentStatus where
  | ran
  | skipped
  | conflict
deriving DecidableEq, Repr

/-- The per-agent `output` payload of the snapshot (heterogeneous
`unknown` in the source, a tagged sum here). -/
inductive AgentOutput where
  | ingestionSample (count : Nat)
  | triage (t : TriageOutput)
  | knowledge (k : KnowledgeOutput)
  | stakeholder (s : StakeholderOutput)
  | memory (m : MemoryOutput)
  | critic (c : CriticOutput)
  | coordinator (c : CoordinatorOutput)
deriving DecidableEq, Repr

/-- `AgentRunInfo` from `types.ts`. -/
structure AgentRunInfo where
  name : String
  status : AgentStatus
  reason : Option String
  timestamp : Nat
  output : Option AgentOutput
  explanation : Option String
deriving DecidableEq, Repr

/-- `ReasoningTimelineItem` from `types.ts`. -/
structure ReasoningTimelineItem where
  timestamp : Nat
  label : String
  detail : String
deriving DecidableEq, Repr

/-- `AgentRunSnapshot` from `types.ts`. -/
structure AgentRunSnapshot where
  batchNumber : Nat
  agents : List AgentRunInfo
  triageReasoning : String
  selectedAgents : List String
  skippedAgents : List String
  timeline : List ReasoningTimelineItem
deriving DecidableEq, Repr

/-- The whole module-level mutable state of `processor.ts`: the status,
the queue, the three indexes, the logs, the latest snapshot and the
scheduler's timer flag (`batchTimer !== null`). -/
structure ProcState where
  status : ProcessingStatus
  queue : List EmailRecord
  knowledgeUpdates : List MemoryUpdate
  informationFlow : List InformationFlow
  conflicts : List Conflict
  decisionLog : List String
  recommendations : Option CoordinatorOutput
  latestAgentSnapshot : Option AgentRunSnapshot
  peopleIndex : List PersonIndexEntry
  topicIndex : List TopicIndexEntry
  timerActive : Bool
deriving DecidableEq, Repr

/-- Default batch size (`BATCH_SIZE`, env default 10). -/
def BATCH_SIZE : Nat := 10

/-- The zero `ProcessingStatus` value (module initialiser and `resetState`). -/
def initialStatus : ProcessingStatus :=
  { status := Phase.idle
    startedAt := none
    completedAt := none
    lastBatchAt := none
    queued := 0
    processed := 0
    results := 0
    errors := 0
    batches := 0
    message := none }

/-- The module-level initial state; `resetState` restores every field of
this except the timer flag, which `resetState` does not touch. -/
def initialState : ProcState :=
  { status := initialStatus
    queue := []
    knowledgeUpdates := []
    informationFlow := []
    conflicts := []
    decisionLog := []
    recommendations := none
    latestAgentSnapshot := none
    peopleIndex := []
    topicIndex := []
    timerActive := false }

/-- `resetState` from `processor.ts`: zero all indexes, logs and counters
(the timer flag is managed separately by `scheduleBatches`/`stopBatches`). -/
def resetState (s : ProcState) : ProcState :=
  { initialState with timerActive := s.timerActive }

/-- `Map.get` on the people index: first entry with the given email. -/
def peopleFind (idx : List PersonIndexEntry) (email : String) : Option PersonIndexEntry :=
  idx.find? (fun p => p.email = email)

/-- One iteration of the participant loop of `applyOutputs` step 1:
skip falsy (empty) emails, create with count 1 if absent, else increment. -/
def ingestOne (idx : List PersonIndexEntry) (email : String) : List PersonIndexEntry :=
  if email = "" then idx
  else
    match peopleFind idx email with
    | none =>
        idx ++ [{ email := email, name := none, inferredRole := none,
                  messageCount := 1, topics := [] }]
    | some _ =>
        idx.map fun p =>
          if p.email = email then { p with messageCount := p.messageCount + 1 } else p

/-- The participants of one parsed message: `[entry.from, ...entry.to]`. -/
def participants (e : IngestionOutput) : List String :=
  e.from_ :: e.to_

/-- Step 1 of `applyOutputs`: fold the participant loop over all parsed messages. -/
def applyIngestion (idx : List PersonIndexEntry) (outs : List IngestionOutput) :
    List PersonIndexEntry :=
  outs.foldl (fun acc e => (participants e).foldl ingestOne acc) idx

/-- One iteration of the stakeholder loop of `applyOutputs` step 2:
create with count 0 and the declared importance if absent, else overwrite
only the inferred role. -/
def stakeOne (idx : List PersonIndexEntry) (st : StakeholderEntry) : List PersonIndexEntry :=
  match peopleFind idx st.email with
  | none =>
      idx ++ [{ email := st.email, name := none, inferredRole := some st.importance,
                messageCount := 0, topics := [] }]
  | some _ =>
      idx.map fun p =>
        if p.email = st.email then { p with inferredRole := some st.importance } else p

/-- Step 2 of `applyOutputs`. -/
def applyStakeholders (idx : List PersonIndexEntry) (sts : List StakeholderEntry) :
    List PersonIndexEntry :=
  sts.foldl stakeOne idx

/-- `Map.get` on the topic index. -/
def topicFind (idx : List TopicIndexEntry) (t : String) : Option TopicIndexEntry :=
  idx.find? (fun e => e.topic = t)

/-- `Map.set` on the topic index: replace in place when the key exists,
append otherwise. -/
def topicSet (idx : List TopicIndexEntry) (e : TopicIndexEntry) : List TopicIndexEntry :=
  match topicFind idx e.topic with
  | some _ => idx.map fun x => if x.topic = e.topic then e else x
  | none => idx ++ [e]

/-- The fixed placeholder summary string of `applyOutputs` step 3. -/
def awaitingSummary : String := "Awaiting memory classification."

/-- The placeholder entry created for a topic first named by the knowledge stage. -/
def placeholderTopic (now : Nat) (t : String) : TopicIndexEntry :=
  { topic := t, latestSummary := awaitingSummary, confidence := mkRat 1 2,
    isNew := true, isConflicting := false, lastUpdatedAt := now }

/-- One iteration of the topic loop of `applyOutputs` step 3: create the
placeholder only when the key is absent. -/
def addTopicPlaceholder (now : Nat) (idx : List TopicIndexEntry) (t : String) :
    List TopicIndexEntry :=
  match topicFind idx t with
  | some _ => idx
  | none => idx ++ [placeholderTopic now t]

/-- Step 3 of `applyOutputs`. -/
def applyKnowledgeTopics (now : Nat) (idx : List TopicIndexEntry) (topics : List String) :
    List TopicIndexEntry :=
  topics.foldl (addTopicPlaceholder now) idx

/-- The wholesale `TopicIndexEntry` built from one memory-stage update
(`applyOutputs` step 4): confidence 0.4 for conflict, 0.75 for new,
0.6 otherwise; flags derived from the change type. -/
def memoryEntry (now : Nat) (u : MemoryUpdate) : TopicIndexEntry :=
  { topic := u.topic
    latestSummary := u.summary
    confidence :=
      if u.changeType = ChangeType.conflict then mkRat 2 5
      else if u.changeType = ChangeType.new then mkRat 3 4
      else mkRat 3 5
    isNew := u.changeType = ChangeType.new
    isConflicting := u.changeType = ChangeType.conflict
    lastUpdatedAt := now }

/-- Step 4 of `applyOutputs`: for each update, overwrite the topic entry
and unshift the update onto the knowledge-change log. -/
def applyMemoryUpdates (now : Nat) (ti : List TopicIndexEntry) (ku : List MemoryUpdate)
    (ups : List MemoryUpdate) : List TopicIndexEntry × List MemoryUpdate :=
  ups.foldl (fun acc u => (topicSet acc.1 (memoryEntry now u), u :: acc.2)) (ti, ku)

/-- The topic-flag half of `applyOutputs` step 5: set `isConflicting` on
an existing entry, leave the index untouched when the key is absent. -/
def markConflict (idx : List TopicIndexEntry) (t : String) : List TopicIndexEntry :=
  match topicFind idx t with
  | some _ => idx.map fun x => if x.topic = t then { x with isConflicting := true } else x
  | none => idx

/-- Step 5 of `applyOutputs`: for each audit conflict, unshift it onto the
conflict log and flag the topic if present. -/
def applyCriticConflicts (ti : List TopicIndexEntry) (cl : List Conflict)
    (cs : List CriticConflict) : List TopicIndexEntry × List Conflict :=
  cs.foldl
    (fun acc c => (markConflict acc.1 c.topic, ⟨c.topic, c.description⟩ :: acc.2)) (ti, cl)

/-- The fallback topic label of `applyOutputs` step 7. -/
def generalTopic : String := "general"

/-- The fixed intent label of `applyOutputs` step 7. -/
def informIntent : String := "inform"

/-- Step 7 of `applyOutputs`: one edge per recipient of each parsed
message, topic = first knowledge topic or the fallback, intent fixed. -/
def flowEdges (outs : List IngestionOutput) (topics : List String) : List InformationFlow :=
  outs.flatMap fun e =>
    e.to_.map fun r =>
      { from_ := e.from_, to_ := r, topic := topics.headD generalTopic,
        intent := informIntent }

/-- `applyOutputs` from `processor.ts`: merge one successful batch's
effective stage outputs into the indexes and logs, in source order
(people from parsing, then stakeholders, then topic placeholders, then
memory overwrites, then audit conflicts, then decisions, flow edges and
the recommendations replacement). -/
def applyOutputs (now : Nat) (ingestionOutputs : List IngestionOutput)
    (knowledge : KnowledgeOutput) (stakeholder : StakeholderOutput)
    (memory : MemoryOutput) (critic : CriticOutput)
    (coordinator : CoordinatorOutput) (s : ProcState) : ProcState :=
  let people1 := applyIngestion s.peopleIndex ingestionOutputs
  let people2 := applyStakeholders people1 stakeholder.stakeholders
  let topics1 := applyKnowledgeTopics now s.topicIndex knowledge.topics
  let tk := applyMemoryUpdates now topics1 s.knowledgeUpdates memory.updates
  let tc := applyCriticConflicts tk.1 s.conflicts critic.conflicts
  { s with
    peopleIndex := people2
    topicIndex := tc.1
    knowledgeUpdates := tk.2
    conflicts := tc.2
    decisionLog := knowledge.decisions ++ s.decisionLog
    informationFlow := flowEdges ingestionOutputs knowledge.topics ++ s.informationFlow
    recommendations := some coordinator }

/-- The list of selected stage names, in the key order of the
`runAgents` object literal (`Object.entries(selected).filter(...)`). -/
def selectedList (sel : RunAgents) : List String :=
  (if sel.knowledge then ["knowledge"] else []) ++
  (if sel.stakeholder then ["stakeholder"] else []) ++
  (if sel.memory then ["memory"] else []) ++
  (if sel.critic then ["critic"] else [])

/-- The list of skipped stage names, in the same key order. -/
def skippedList (sel : RunAgents) : List String :=
  (if sel.knowledge then [] else ["knowledge"]) ++
  (if sel.stakeholder then [] else ["stakeholder"]) ++
  (if sel.memory then [] else ["memory"]) ++
  (if sel.critic then [] else ["critic"])

/-- Separator used when the source joins stage-name lists. -/
def commaSep : String := ", "

/-- Fallback used by the source for an empty joined stage-name list. -/
def noneLabel : String := "none"

/-- `list.join(", ") || "none"` from the snapshot builder. -/
def joinOrNone (xs : List String) : String :=
  if String.intercalate commaSep xs = "" then noneLabel
  else String.intercalate commaSep xs

/-- The name of the stage whose selection drives the knowledge branch. -/
def knowledgeStage : String := "knowledge"

/-- The name of the stage whose selection drives the stakeholder branch. -/
def stakeholderStage : String := "stakeholder"

/-- The name of the stage whose selection drives the memory branch. -/
def memoryStage : String := "memory"

/-- The name of the stage whose selection drives the audit branch. -/
def criticStage : String := "critic"

/-- The effective knowledge output of a batch: the stage's response when
selected by triage, the documented empty default otherwise
(`resultMap.knowledge ?? { topics: [], decisions: [], facts: [] }`). -/
def effKnowledge (sel : RunAgents) (k : KnowledgeOutput) : KnowledgeOutput :=
  if sel.knowledge then k else { topics := [], decisions := [], facts := [] }

/-- The effective stakeholder output (`?? { stakeholders: [] }`). -/
def effStakeholder (sel : RunAgents) (st : StakeholderOutput) : StakeholderOutput :=
  if sel.stakeholder then st else { stakeholders := [] }

/-- The effective memory output (`?? { updates: [] }`). -/
def effMemory (sel : RunAgents) (m : MemoryOutput) : MemoryOutput :=
  if sel.memory then m else { updates := [] }

/-- The effective audit output: the critic runs only when selected,
otherwise its conflicts default to the empty list. -/
def effCritic (sel : RunAgents) (c : CriticOutput) : CriticOutput :=
  if sel.critic then c else { conflicts := [] }

/-- `buildAgentSnapshot` from `processor.ts`: the per-stage status list
(`ran`/`skipped`, and `conflict` for a selected critic reporting at least
one conflict), the timeline of milestone strings and the retained raw
outputs. Statuses are computed from `selectedAgents.includes(...)` exactly
as in the source. -/
def buildAgentSnapshot (now : Nat) (batchNumber : Nat) (triageReasoning : String)
    (selectedAgents : List String) (skippedAgents : List String)
    (knowledge : KnowledgeOutput) (stakeholder : StakeholderOutput)
    (memory : MemoryOutput) (critic : CriticOutput)
    (coordinator : CoordinatorOutput) (triage : TriageOutput) : AgentRunSnapshot :=
  let triageItem : ReasoningTimelineItem :=
    { timestamp := now, label := "Triage",
      detail := "Selected agents: " ++ joinOrNone selectedAgents }
  let knowledgeItems : List ReasoningTimelineItem :=
    if knowledge.topics.length > 0 ∨ knowledge.decisions.length > 0 then
      [{ timestamp := now, label := "Knowledge",
         detail := "Detected " ++ toString knowledge.topics.length ++
           " topics and " ++ toString knowledge.decisions.length ++ " decisions" }]
    else []
  let memoryItems : List ReasoningTimelineItem :=
    if memory.updates.length > 0 then
      [{ timestamp := now, label := "Memory",
         detail := "Classified " ++ toString memory.updates.length ++
           " knowledge updates" }]
    else []
  let criticItems : List ReasoningTimelineItem :=
    if critic.conflicts.length > 0 then
      [{ timestamp := now, label := "Critic",
         detail := "Flagged " ++ toString critic.conflicts.length ++ " conflicts" }]
    else []
  let coordinatorItem : ReasoningTimelineItem :=
    { timestamp := now, label := "Coordinator",
      detail := "Prepared executive brief and " ++
        toString coordinator.priorityItems.length ++ " priority items" }
  { batchNumber := batchNumber
    agents :=
      [ { name := "Ingestion", status := AgentStatus.ran, reason := none,
          timestamp := now, output := some (AgentOutput.ingestionSample batchNumber),
          explanation := some "Parsed raw emails into sender, recipients, timestamp, and clean body." },
        { name := "Triage", status := AgentStatus.ran, reason := some triageReasoning,
          timestamp := now, output := some (AgentOutput.triage triage),
          explanation := some "Decided which specialist agents were needed to reduce noise." },
        { name := "Knowledge",
          status :=
            if selectedAgents.contains knowledgeStage then AgentStatus.ran
            else AgentStatus.skipped,
          reason :=
            if selectedAgents.contains knowledgeStage then some "Selected by triage"
            else some "Skipped by triage",
          timestamp := now, output := some (AgentOutput.knowledge knowledge),
          explanation := some "Extracted topics, decisions, and factual statements." },
        { name := "Stakeholder",
          status :=
            if selectedAgents.contains stakeholderStage then AgentStatus.ran
            else AgentStatus.skipped,
          reason :=
            if selectedAgents.contains stakeholderStage then some "Selected by triage"
            else some "Skipped by triage",
          timestamp := now, output := some (AgentOutput.stakeholder stakeholder),
          explanation := some "Inferred stakeholder importance and dependencies." },
        { name := "Memory",
          status :=
            if selectedAgents.contains memoryStage then AgentStatus.ran
            else AgentStatus.skipped,
          reason :=
            if selectedAgents.contains memoryStage then some "Selected by triage"
            else some "Skipped by triage",
          timestamp := now, output := some (AgentOutput.memory memory),
          explanation := some "Classified new, updated, and conflicting knowledge over time." },
        { name := "Critic",
          status :=
            if selectedAgents.contains criticStage then
              (if critic.conflicts.length > 0 then AgentStatus.conflict else AgentStatus.ran)
            else AgentStatus.skipped,
          reason :=
            if selectedAgents.contains criticStage then some "Selected by triage"
            else some "Skipped by triage",
          timestamp := now, output := some (AgentOutput.critic critic),
          explanation := some "Audited outputs for contradictions and overload." },
        { name := "Coordinator", status := AgentStatus.ran, reason := none,
          timestamp := now, output := some (AgentOutput.coordinator coordinator),
          explanation := some "Synthesized outputs into an executive brief and priority actions." } ]
    triageReasoning := triageReasoning
    selectedAgents := selectedAgents
    skippedAgents := skippedAgents
    timeline :=
      [triageItem] ++ knowledgeItems ++ memoryItems ++ criticItems ++ [coordinatorItem] }

/-- The full set of capability responses available to one batch, supplied
as an oracle (each field is what the corresponding agent would return if
called). -/
structure AgentResponses where
  ingestion : List IngestionOutput
  triage : TriageOutput
  knowledge : KnowledgeOutput
  stakeholder : StakeholderOutput
  memory : MemoryOutput
  critic : CriticOutput
  coordinator : CoordinatorOutput
deriving DecidableEq, Repr

/-- The outcome of one batch's capability calls: either every call
succeeds with schema-valid output, or some call throws / fails
validation (which aborts the batch before `applyOutputs`). -/
inductive BatchStep where
  | success (r : AgentResponses)
  | failure
deriving DecidableEq, Repr

/-- The body of the `try` block of `runBatch` after the queue splice:
run the pipeline on the already-popped batch, apply outputs, rebuild the
snapshot and update the success counters. `batchLen` is the length of the
popped slice. -/
def runBatchSuccess (now : Nat) (batchNumber : Nat) (batchLen : Nat)
    (r : AgentResponses) (s : ProcState) : ProcState :=
  let sel := r.triage.runAgents
  let knowledge := effKnowledge sel r.knowledge
  let stakeholder := effStakeholder sel r.stakeholder
  let memory := effMemory sel r.memory
  let critic := effCritic sel r.critic
  let s1 := applyOutputs now r.ingestion knowledge stakeholder memory critic r.coordinator s
  let snap := buildAgentSnapshot now batchNumber r.triage.reasoning
    (selectedList sel) (skippedList sel) knowledge stakeholder memory critic
    r.coordinator r.triage
  { s1 with
    latestAgentSnapshot := some snap
    status := { s1.status with
      processed := s1.status.processed + batchLen
      results := s1.knowledgeUpdates.length
      batches := batchNumber } }

/-- The queue check at the tail of `runBatch`: a queue found empty after
the batch completes the run and cancels the timer. -/
def finishBatch (now : Nat) (s : ProcState) : ProcState :=
  if s.queue = [] then
    { s with
      status := { s.status with status := Phase.completed, completedAt := some now }
      timerActive := false }
  else s

/-- `runBatch` from `processor.ts`. An empty queue at entry completes the
run and cancels the timer. Otherwise the batch slice is popped from the
front of the queue and the queue counters are updated *before* the
pipeline runs; on success the outputs are applied and the counters
stamped, on failure only `errors` is incremented; in both cases a queue
found empty afterwards completes the run and cancels the timer. -/
def runBatch (now : Nat) (s : ProcState) (step : BatchStep) : ProcState :=
  if s.queue = [] then
    { s with
      status := { s.status with status := Phase.completed, completedAt := some now }
      timerActive := false }
  else
    let batchNumber := s.status.batches + 1
    let batch := s.queue.take BATCH_SIZE
    let rest := s.queue.drop BATCH_SIZE
    let s1 := { s with
      queue := rest
      status := { s.status with queued := rest.length, lastBatchAt := some now } }
    let s2 :=
      match step with
      | BatchStep.success r => runBatchSuccess now batchNumber batch.length r s1
      | BatchStep.failure =>
          { s1 with status := { s1.status with errors := s1.status.errors + 1 } }
    finishBatch now s2

/-- A sequence of scheduler ticks that each execute one batch (the
in-progress guard makes batches strictly sequential, so a run is a fold). -/
def runBatches (now : Nat) (s : ProcState) (steps : List BatchStep) : ProcState :=
  steps.foldl (runBatch now) s

/-- `getStatus` (the source returns a field-by-field copy of `status`). -/
def getStatus (s : ProcState) : ProcessingStatus :=
  s.status

/-- Descending insertion by `messageCount` (the comparator
`(a, b) => b.messageCount - a.messageCount`). -/
def insertByCountDesc (p : PersonIndexEntry) :
    List PersonIndexEntry → List PersonIndexEntry
  | [] => [p]
  | q :: rest =>
      if q.messageCount < p.messageCount then p :: q :: rest
      else q :: insertByCountDesc p rest

/-- Sort the people index values descending by `messageCount`. -/
def sortByCountDesc (l : List PersonIndexEntry) : List PersonIndexEntry :=
  l.foldr insertByCountDesc []

/-- `getPeople`: all people-index values, sorted descending by message count. -/
def getPeople (s : ProcState) : List PersonIndexEntry :=
  sortByCountDesc s.peopleIndex

/-- `getTopics`: the topic-index values in insertion order. -/
def getTopics (s : ProcState) : List TopicIndexEntry :=
  s.topicIndex

/-- `getConflicts`. -/
def getConflicts (s : ProcState) : List Conflict :=
  s.conflicts

/-- `getLatestAgentRuns`. -/
def getLatestAgentRuns (s : ProcState) : Option AgentRunSnapshot :=
  s.latestAgentSnapshot

/-- `startProcessing` from `processor.ts`. A call while the phase is
already `running` returns the current status without touching any state.
Otherwise the state is reset, the phase set to `running`, and the record
load either succeeds (queue filled, `queued` set, timer scheduled, first
batch run synchronously with outcome `firstStep`) or fails (phase set to
`error` with the message recorded, timer stopped). Returns the new state
together with the status copy handed back to the caller. -/
def startProcessing (now : Nat) (s : ProcState)
    (loadResult : Except String (List EmailRecord)) (firstStep : BatchStep) :
    ProcState × ProcessingStatus :=
  if s.status.status = Phase.running then
    (s, getStatus s)
  else
    let s0 := resetState s
    let s1 := { s0 with
      status := { s0.status with status := Phase.running, startedAt := some now } }
    match loadResult with
    | Except.ok records =>
        let s2 := { s1 with
          queue := records
          status := { s1.status with queued := records.length } }
        let s3 := runBatch now { s2 with timerActive := true } firstStep
        (s3, getStatus s3)
    | Except.error msg =>
        let s2 := { s1 with
          status := { s1.status with status := Phase.error, message := some msg }
          timerActive := false }
        (s2, getStatus s2)

/-- One parsed CSV row as handed to the `data` listener of
`readFirstNRecords`: the two columns may each be missing. -/
structure CsvRow where
  file : Option String
  message : Option String
deriving DecidableEq, Repr

/-- The record built from one row: `String(data.file ?? "")`,
`String(data.message ?? "")`. -/
def rowToRecord (d : CsvRow) : EmailRecord :=
  { file := d.file.getD "", message := d.message.getD "" }

/-- The accumulation of the `data` listener of `readFirstNRecords`: a row
is appended only while fewer than `limit` records have been collected
(reaching `limit` destroys the stream, which resolves with the collected
prefix). -/
def collectRows (limit : Nat) (rows : List CsvRow) : List EmailRecord :=
  rows.foldl (fun acc row => if acc.length < limit then acc ++ [rowToRecord row] else acc) []

/-- `readFirstNRecords` from `processor.ts`, with the CSV source modelled
as either the parsed row sequence or an I/O error: on success the promise
resolves with the collected prefix, on a stream error it rejects with
that error. -/
def readFirstNRecords (src : Except String (List CsvRow)) (limit : Nat) :
    Except String (List EmailRecord) :=
  src.map (collectRows limit)

/-- The status of the named agent inside a snapshot's `agents` list. -/
def snapshotAgentStatus (snap : AgentRunSnapshot) (nm : String) : Option AgentStatus :=
  (snap.agents.find? (fun a => a.name = nm)).map (fun a => a.status)

/-- The snapshot display name of the knowledge stage. -/
def knowledgeLabel : String := "Knowledge"

/-- The snapshot display name of the stakeholder stage. -/
def stakeholderLabel : String := "Stakeholder"

/-- The snapshot display name of the memory stage. -/
def memoryLabel : String := "Memory"

/-- The snapshot display name of the audit stage. -/
def criticLabel : String := "Critic"

/-- The message count recorded for an identifier, 0 when the identifier
has no entry. -/
def messageCountOf (idx : List PersonIndexEntry) (em : String) : Nat :=
  ((peopleFind idx em).map (fun p => p.messageCount)).getD 0

/-- How many times an identifier occurs among the sender-plus-recipient
fields of a list of parsed messages, counted with multiplicity. -/
def occurrencesIn (outs : List IngestionOutput) (em : String) : Nat :=
  (outs.flatMap participants).count em

/-- Modelled from the spec's words (claim C2), for comparison with the
code's counting: the number of parsed messages in which the identifier
appears as the sender or as a recipient. -/
def spec_messagesMentioning (outs : List IngestionOutput) (em : String) : Nat :=
  (outs.filter (fun e => em == e.from_ || e.to_.contains em)).length

/-- A triage decision that selects no analysis or audit stage. -/
def noTriage : TriageOutput :=
  { runAgents := { knowledge := false, stakeholder := false, memory := false, critic := false }
    reasoning := "" }

/-- A full response set whose stages all return their empty outputs. -/
def noopResponses : AgentResponses :=
  { ingestion := []
    triage := noTriage
    knowledge := { topics := [], decisions := [], facts := [] }
    stakeholder := { stakeholders := [] }
    memory := { updates := [] }
    critic := { conflicts := [] }
    coordinator := { executiveBrief := "", notify := [], priorityItems := [] } }

/-- A 23-record source (end-to-end scenario A). -/
def records23 : List EmailRecord :=
  List.replicate 23 { file := "f", message := "m" }

/-- Scenario A after the synchronous first batch of `startProcessing`. -/
def scenarioA1 : ProcState :=
  (startProcessing 0 initialState (Except.ok records23) (BatchStep.success noopResponses)).1

/-- Scenario A after the second scheduled batch. -/
def scenarioA2 : ProcState :=
  runBatch 0 scenarioA1 (BatchStep.success noopResponses)

/-- Scenario A after the third scheduled batch. -/
def scenarioA3 : ProcState :=
  runBatch 0 scenarioA2 (BatchStep.success noopResponses)

/-- A one-record source used by concrete runs. -/
def oneRecord : List EmailRecord :=
  [{ file := "f", message := "m" }]

/-- The state after starting a run on a one-record source whose only
batch fails. -/
def failedRunState : ProcState :=
  (startProcessing 0 initialState (Except.ok oneRecord) BatchStep.failure).1

/-- The identifier used by the concrete double-counting batch. -/
def aEmail : String := "a"

/-- A response set whose single parsed message has the same identifier as
sender and as its one recipient. -/
def c2resp : AgentResponses :=
  { noopResponses with
    ingestion := [{ from_ := "a", to_ := ["a"], timestamp := "", body := "" }] }

/-- The state after starting a run on a one-record source whose only
batch succeeds with `c2resp`. -/
def c2State : ProcState :=
  (startProcessing 0 initialState (Except.ok oneRecord) (BatchStep.success c2resp)).1

/-- A mid-run state holding one queued record, as observed between
batches of a running run. -/
def midRunState : ProcState :=
  { initialState with
    status := { initialStatus with status := Phase.running, queued := 1 }
    queue := oneRecord
    timerActive := true }

/-- A mid-run state holding twelve queued records. -/
def midRunState12 : ProcState :=
  { initialState with
    status := { initialStatus with status := Phase.running, queued := 12 }
    queue := List.replicate 12 { file := "f", message := "m" }
    timerActive := true }

/-- A running state used to exercise the `startRun`-while-running no-op. -/
def runningState : ProcState :=
  { initialState with
    status := { initialStatus with status := Phase.running, queued := 5 }
    queue := List.replicate 5 { file := "f", message := "m" }
    timerActive := true }

/-- A knowledge-change event with change type `new`. -/
def n1Update : MemoryUpdate :=
  { topic := "t", changeType := ChangeType.new, summary := "s1" }

/-- A second knowledge-change event for the same key, change type `update`. -/
def n2Update : MemoryUpdate :=
  { topic := "t", changeType := ChangeType.update, summary := "s2" }

/-- An audit conflict used at concrete inputs. -/
def cConflict : CriticConflict :=
  { topic := "t", description := "d", severity := "high" }

/-- The stakeholder identifier of the concrete zero-count scenario. -/
def bossEmail : String := "boss"

/-- A stakeholder declaration for an identifier absent from the people
index and from the batch's parsed messages. -/
def bossEntry : StakeholderEntry :=
  { email := "boss", importance := "high", reason := "vip" }

/-- A response set that selects only the stakeholder stage and reports
`bossEntry`. -/
def c10resp : AgentResponses :=
  { noopResponses with
    triage :=
      { runAgents :=
          { knowledge := false, stakeholder := true, memory := false, critic := false }
        reasoning := "" }
    stakeholder := { stakeholders := [bossEntry] } }

/-- The state `startProcessing` hands to its synchronous first batch
after a successful load of `records`. -/
def startedState (now : Nat) (records : List EmailRecord) : ProcState :=
  { initialState with
    queue := records
    status := { initialStatus with
      status := Phase.running, startedAt := some now, queued := records.length }
    timerActive := true }

lemma peopleFind_cons (p : PersonIndexEntry) (l : List PersonIndexEntry) (em : String) :
    peopleFind (p :: l) em = if p.email = em then some p else peopleFind l em := by
  by_cases h : p.email = em <;> simp [peopleFind, List.find?_cons, h]

lemma peopleFind_append (l₁ l₂ : List PersonIndexEntry) (em : String) :
    peopleFind (l₁ ++ l₂) em = (peopleFind l₁ em).or (peopleFind l₂ em) := by
  simp [peopleFind, List.find?_append]

lemma peopleFind_single (p : PersonIndexEntry) (em : String) :
    peopleFind [p] em = if p.email = em then some p else none := by
  simp [peopleFind_cons, peopleFind]

lemma peopleFind_eq_some_email {l : List PersonIndexEntry} {em : String}
    {p : PersonIndexEntry} (h : peopleFind l em = some p) : p.email = em := by
  have := List.find?_some h
  simpa using this

lemma peopleFind_mem {l : List PersonIndexEntry} {em : String}
    {p : PersonIndexEntry} (h : peopleFind l em = some p) : p ∈ l :=
  List.mem_of_find?_eq_some h

lemma peopleFind_map_keyed (g : PersonIndexEntry → PersonIndexEntry)
    (hg : ∀ p, (g p).email = p.email) (l : List PersonIndexEntry) (em : String) :
    peopleFind (l.map g) em = (peopleFind l em).map g := by
  induction l with
  | nil => rfl
  | cons p l ih =>
      by_cases h : p.email = em
      · simp [peopleFind_cons, hg, h]
      · simp [peopleFind_cons, hg, h, ih]

lemma topicFind_cons (e : TopicIndexEntry) (l : List TopicIndexEntry) (t : String) :
    topicFind (e :: l) t = if e.topic = t then some e else topicFind l t := by
  by_cases h : e.topic = t <;> simp [topicFind, List.find?_cons, h]

lemma topicFind_append (l₁ l₂ : List TopicIndexEntry) (t : String) :
    topicFind (l₁ ++ l₂) t = (topicFind l₁ t).or (topicFind l₂ t) := by
  simp [topicFind, List.find?_append]

lemma topicFind_single (e : TopicIndexEntry) (t : String) :
    topicFind [e] t = if e.topic = t then some e else none := by
  simp [topicFind_cons, topicFind]

lemma topicFind_eq_some_topic {l : List TopicIndexEntry} {t : String}
    {e : TopicIndexEntry} (h : topicFind l t = some e) : e.topic = t := by
  have := List.find?_some h
  simpa using this

lemma topicFind_map_keyed (g : TopicIndexEntry → TopicIndexEntry)
    (hg : ∀ e, (g e).topic = e.topic) (l : List TopicIndexEntry) (t : String) :
    topicFind (l.map g) t = (topicFind l t).map g := by
  induction l with
  | nil => rfl
  | cons e l ih =>
      by_cases h : e.topic = t
      · simp [topicFind_cons, hg, h]
      · simp [topicFind_cons, hg, h, ih]

lemma topicFind_topicSet_self (idx : List TopicIndexEntry) (e : TopicIndexEntry) :
    topicFind (topicSet idx e) e.topic = some e := by
  unfold topicSet
  cases h : topicFind idx e.topic with
  | none => simp [topicFind_append, h, topicFind_single]
  | some x =>
      rw [topicFind_map_keyed]
      · rw [h]
        have hx : x.topic = e.topic := topicFind_eq_some_topic h
        simp [hx]
      · intro y
        by_cases hy : y.topic = e.topic <;> simp [hy]

lemma topicFind_topicSet_ne (idx : List TopicIndexEntry) (e : TopicIndexEntry)
    (t : String) (h : t ≠ e.topic) : topicFind (topicSet idx e) t = topicFind idx t := by
  unfold topicSet
  cases hf : topicFind idx e.topic with
  | none =>
      rw [topicFind_append, topicFind_single]
      have : ¬ e.topic = t := fun hh => h hh.symm
      simp [this]
  | some x =>
      rw [topicFind_map_keyed]
      · cases hft : topicFind idx t with
        | none => simp
        | some y =>
            have hy : y.topic = t := topicFind_eq_some_topic hft
            have : ¬ y.topic = e.topic := by
              rw [hy]; exact h
            simp [this]
      · intro y
        by_cases hy : y.topic = e.topic <;> simp [hy]

lemma markConflict_of_absent (idx : List TopicIndexEntry) (t : String)
    (h : topicFind idx t = none) : markConflict idx t = idx := by
  simp [markConflict, h]

lemma topicFind_markConflict_self (idx : List TopicIndexEntry) (t : String)
    (x : TopicIndexEntry) (h : topicFind idx t = some x) :
    topicFind (markConflict idx t) t = some { x with isConflicting := true } := by
  unfold markConflict
  rw [h, topicFind_map_keyed]
  · rw [h]
    have hx : x.topic = t := topicFind_eq_some_topic h
    simp [hx]
  · intro y
    by_cases hy : y.topic = t <;> simp [hy]

lemma topicFind_markConflict_ne (idx : List TopicIndexEntry) (t u : String)
    (h : u ≠ t) : topicFind (markConflict idx t) u = topicFind idx u := by
  unfold markConflict
  cases hf : topicFind idx t with
  | none => rfl
  | some x =>
      rw [topicFind_map_keyed]
      · cases hfu : topicFind idx u with
        | none => simp
        | some y =>
            have hy : y.topic = u := topicFind_eq_some_topic hfu
            have : ¬ y.topic = t := by
              rw [hy]; exact h
            simp [this]
      · intro y
        by_cases hy : y.topic = t <;> simp [hy]

lemma ingestOne_find_ne (idx : List PersonIndexEntry) (e em : String) (h : e ≠ em) :
    peopleFind (ingestOne idx e) em = peopleFind idx em := by
  unfold ingestOne
  by_cases he : e = ""
  · simp [he]
  · simp only [he, if_false]
    cases hf : peopleFind idx e with
    | none =>
        rw [peopleFind_append, peopleFind_single]
        simp [h]
    | some x =>
        rw [peopleFind_map_keyed]
        · cases hfm : peopleFind idx em with
          | none => simp
          | some y =>
              have hy : y.email = em := peopleFind_eq_some_email hfm
              have : ¬ y.email = e := by
                rw [hy]; exact fun hh => h hh.symm
              simp [this]
        · intro p
          by_cases hp : p.email = e <;> simp [hp]

lemma ingestOne_count_self (idx : List PersonIndexEntry) (em : String) (h : em ≠ "") :
    messageCountOf (ingestOne idx em) em = messageCountOf idx em + 1 := by
  unfold ingestOne
  simp only [h, if_false]
  cases hf : peopleFind idx em with
  | none =>
      unfold messageCountOf
      rw [peopleFind_append, peopleFind_single, hf]
      simp
  | some x =>
      unfold messageCountOf
      rw [peopleFind_map_keyed]
      · rw [hf]
        have hx : x.email = em := peopleFind_eq_some_email hf
        simp [hx]
      · intro p
        by_cases hp : p.email = em <;> simp [hp]

lemma ingestOne_count (idx : List PersonIndexEntry) (e em : String) (h : em ≠ "") :
    messageCountOf (ingestOne idx e) em
      = messageCountOf idx em + (if e = em then 1 else 0) := by
  by_cases he : e = em
  · subst he
    simp [ingestOne_count_self idx e h]
  · simp [he, messageCountOf, ingestOne_find_ne idx e em he]

lemma foldl_ingestOne_count (ps : List String) (idx : List PersonIndexEntry)
    (em : String) (h : em ≠ "") :
    messageCountOf (ps.foldl ingestOne idx) em = messageCountOf idx em + ps.count em := by
  induction ps generalizing idx with
  | nil => simp
  | cons p ps ih =>
      rw [List.foldl_cons, ih (ingestOne idx p), ingestOne_count idx p em h,
        List.count_cons]
      by_cases hp : p = em
      · simp [hp]
        omega
      · have : ¬ (p == em) = true := by simpa using hp
        simp [hp, this]

lemma applyIngestion_count (idx : List PersonIndexEntry) (outs : List IngestionOutput)
    (em : String) (h : em ≠ "") :
    messageCountOf (applyIngestion idx outs) em
      = messageCountOf idx em + occurrencesIn outs em := by
  induction outs generalizing idx with
  | nil => simp [applyIngestion, occurrencesIn]
  | cons o outs ih =>
      unfold applyIngestion at ih ⊢
      rw [List.foldl_cons, ih, foldl_ingestOne_count _ _ _ h]
      unfold occurrencesIn
      rw [List.flatMap_cons, List.count_append]
      omega

lemma stakeOne_count (idx : List PersonIndexEntry) (st : StakeholderEntry) (em : String) :
    messageCountOf (stakeOne idx st) em = messageCountOf idx em := by
  unfold stakeOne
  cases hf : peopleFind idx st.email with
  | none =>
      unfold messageCountOf
      rw [peopleFind_append, peopleFind_single]
      by_cases he : st.email = em
      · rw [← he, hf]
        simp
      · simp [he]
  | some x =>
      unfold messageCountOf
      rw [peopleFind_map_keyed]
      · cases hfm : peopleFind idx em with
        | none => simp
        | some y =>
            by_cases hy : y.email = st.email <;> simp [hy]
      · intro p
        by_cases hp : p.email = st.email <;> simp [hp]

lemma applyStakeholders_count (idx : List PersonIndexEntry)
    (sts : List StakeholderEntry) (em : String) :
    messageCountOf (applyStakeholders idx sts) em = messageCountOf idx em := by
  induction sts generalizing idx with
  | nil => rfl
  | cons st sts ih =>
      unfold applyStakeholders at ih ⊢
      rw [List.foldl_cons, ih, stakeOne_count]

lemma stakeOne_find_ne (idx : List PersonIndexEntry) (st : StakeholderEntry)
    (em : String) (h : st.email ≠ em) :
    peopleFind (stakeOne idx st) em = peopleFind idx em := by
  unfold stakeOne
  cases hf : peopleFind idx st.email with
  | none =>
      rw [peopleFind_append, peopleFind_single]
      simp [h]
  | some x =>
      rw [peopleFind_map_keyed]
      · cases hfm : peopleFind idx em with
        | none => simp
        | some y =>
            have hy : y.email = em := peopleFind_eq_some_email hfm
            have : ¬ y.email = st.email := by
              rw [hy]; exact fun hh => h hh.symm
            simp [this]
      · intro p
        by_cases hp : p.email = st.email <;> simp [hp]

lemma applyStakeholders_find_no_match (idx : List PersonIndexEntry)
    (sts : List StakeholderEntry) (em : String)
    (h : sts.filter (fun x => x.email = em) = []) :
    peopleFind (applyStakeholders idx sts) em = peopleFind idx em := by
  induction sts generalizing idx with
  | nil => rfl
  | cons st sts ih =>
      rw [List.filter_cons] at h
      by_cases he : st.email = em
      · simp [he] at h
      · simp only [he] at h
        simp only [decide_eq_true_eq, if_neg he] at h
        unfold applyStakeholders at ih ⊢
        rw [List.foldl_cons, ih _ h, stakeOne_find_ne _ _ _ he]

lemma applyStakeholders_creates (idx : List PersonIndexEntry)
    (sts : List StakeholderEntry) (em : String) (st : StakeholderEntry)
    (habs : peopleFind idx em = none)
    (hfil : sts.filter (fun x => x.email = em) = [st]) :
    peopleFind (applyStakeholders idx sts) em
      = some { email := em, name := none, inferredRole := some st.importance,
               messageCount := 0, topics := [] } := by
  induction sts generalizing idx with
  | nil => simp at hfil
  | cons a rest ih =>
      rw [List.filter_cons] at hfil
      by_cases ha : a.email = em
      · rw [if_pos (by simpa using ha)] at hfil
        rw [List.cons_eq_cons] at hfil
        obtain ⟨rfl, hrest⟩ := hfil
        unfold applyStakeholders
        rw [List.foldl_cons]
        have hcreated : peopleFind (stakeOne idx a) em
            = some { email := em, name := none, inferredRole := some a.importance,
                     messageCount := 0, topics := [] } := by
          unfold stakeOne
          rw [ha, habs]
          rw [peopleFind_append, habs, peopleFind_single]
          simp [ha]
        have := applyStakeholders_find_no_match (stakeOne idx a) rest em hrest
        unfold applyStakeholders at this
        rw [this, hcreated]
      · rw [if_neg (by simpa using ha)] at hfil
        unfold applyStakeholders at ih ⊢
        rw [List.foldl_cons, ih _ (by rw [stakeOne_find_ne _ _ _ ha]; exact habs) hfil]

lemma foldl_ingestOne_find_not_mem (ps : List String) (idx : List PersonIndexEntry)
    (em : String) (h : em ∉ ps) :
    peopleFind (ps.foldl ingestOne idx) em = peopleFind idx em := by
  induction ps generalizing idx with
  | nil => rfl
  | cons p ps ih =>
      rw [List.mem_cons] at h
      push_neg at h
      rw [List.foldl_cons, ih _ h.2, ingestOne_find_ne _ _ _ (fun hh => h.1 hh.symm)]

lemma applyIngestion_find_not_mem (idx : List PersonIndexEntry)
    (outs : List IngestionOutput) (em : String)
    (h : em ∉ outs.flatMap participants) :
    peopleFind (applyIngestion idx outs) em = peopleFind idx em := by
  induction outs generalizing idx with
  | nil => rfl
  | cons o outs ih =>
      rw [List.flatMap_cons, List.mem_append] at h
      push_neg at h
      unfold applyIngestion at ih ⊢
      rw [List.foldl_cons, ih _ h.2, foldl_ingestOne_find_not_mem _ _ _ h.1]

lemma mem_insertByCountDesc (p x : PersonIndexEntry) (l : List PersonIndexEntry) :
    x ∈ insertByCountDesc p l ↔ x = p ∨ x ∈ l := by
  induction l with
  | nil => simp [insertByCountDesc]
  | cons q rest ih =>
      unfold insertByCountDesc
      by_cases h : q.messageCount < p.messageCount
      · simp [h]
      · simp only [h, if_false, List.mem_cons, ih]
        tauto

lemma mem_sortByCountDesc (x : PersonIndexEntry) (l : List PersonIndexEntry) :
    x ∈ sortByCountDesc l ↔ x ∈ l := by
  induction l with
  | nil => simp [sortByCountDesc]
  | cons p rest ih =>
      unfold sortByCountDesc at ih ⊢
      rw [List.foldr_cons, mem_insertByCountDesc, ih, List.mem_cons]

lemma finishBatch_peopleIndex (now : Nat) (s : ProcState) :
    (finishBatch now s).peopleIndex = s.peopleIndex := by
  unfold finishBatch
  split <;> rfl

lemma finishBatch_topicIndex (now : Nat) (s : ProcState) :
    (finishBatch now s).topicIndex = s.topicIndex := by
  unfold finishBatch
  split <;> rfl

lemma finishBatch_conflicts (now : Nat) (s : ProcState) :
    (finishBatch now s).conflicts = s.conflicts := by
  unfold finishBatch
  split <;> rfl

lemma finishBatch_knowledgeUpdates (now : Nat) (s : ProcState) :
    (finishBatch now s).knowledgeUpdates = s.knowledgeUpdates := by
  unfold finishBatch
  split <;> rfl

lemma finishBatch_decisionLog (now : Nat) (s : ProcState) :
    (finishBatch now s).decisionLog = s.decisionLog := by
  unfold finishBatch
  split <;> rfl

lemma finishBatch_informationFlow (now : Nat) (s : ProcState) :
    (finishBatch now s).informationFlow = s.informationFlow := by
  unfold finishBatch
  split <;> rfl

lemma finishBatch_recommendations (now : Nat) (s : ProcState) :
    (finishBatch now s).recommendations = s.recommendations := by
  unfold finishBatch
  split <;> rfl

lemma finishBatch_snapshot (now : Nat) (s : ProcState) :
    (finishBatch now s).latestAgentSnapshot = s.latestAgentSnapshot := by
  unfold finishBatch
  split <;> rfl

lemma finishBatch_queue (now : Nat) (s : ProcState) :
    (finishBatch now s).queue = s.queue := by
  unfold finishBatch
  split <;> rfl

lemma finishBatch_queued (now : Nat) (s : ProcState) :
    (finishBatch now s).status.queued = s.status.queued := by
  unfold finishBatch
  split <;> rfl

lemma finishBatch_processed (now : Nat) (s : ProcState) :
    (finishBatch now s).status.processed = s.status.processed := by
  unfold finishBatch
  split <;> rfl

lemma finishBatch_errors (now : Nat) (s : ProcState) :
    (finishBatch now s).status.errors = s.status.errors := by
  unfold finishBatch
  split <;> rfl

lemma finishBatch_batches (now : Nat) (s : ProcState) :
    (finishBatch now s).status.batches = s.status.batches := by
  unfold finishBatch
  split <;> rfl

lemma finishBatch_of_empty (now : Nat) (s : ProcState) (h : s.queue = []) :
    (finishBatch now s).status.status = Phase.completed := by
  simp [finishBatch, h]

lemma finishBatch_of_ne (now : Nat) (s : ProcState) (h : s.queue ≠ []) :
    finishBatch now s = s := by
  simp [finishBatch, h]

lemma runBatchSuccess_peopleIndex (now bn bl : Nat) (r : AgentResponses) (s : ProcState) :
    (runBatchSuccess now bn bl r s).peopleIndex
      = applyStakeholders (applyIngestion s.peopleIndex r.ingestion)
          (effStakeholder r.triage.runAgents r.stakeholder).stakeholders := rfl

lemma runBatchSuccess_topicIndex (now bn bl : Nat) (r : AgentResponses) (s : ProcState) :
    (runBatchSuccess now bn bl r s).topicIndex
      = (applyCriticConflicts
          (applyMemoryUpdates now
            (applyKnowledgeTopics now s.topicIndex
              (effKnowledge r.triage.runAgents r.knowledge).topics)
            s.knowledgeUpdates (effMemory r.triage.runAgents r.memory).updates).1
          s.conflicts (effCritic r.triage.runAgents r.critic).conflicts).1 := rfl

lemma runBatchSuccess_knowledgeUpdates (now bn bl : Nat) (r : AgentResponses) (s : ProcState) :
    (runBatchSuccess now bn bl r s).knowledgeUpdates
      = (applyMemoryUpdates now
          (applyKnowledgeTopics now s.topicIndex
            (effKnowledge r.triage.runAgents r.knowledge).topics)
          s.knowledgeUpdates (effMemory r.triage.runAgents r.memory).updates).2 := rfl

lemma runBatchSuccess_conflicts (now bn bl : Nat) (r : AgentResponses) (s : ProcState) :
    (runBatchSuccess now bn bl r s).conflicts
      = (applyCriticConflicts
          (applyMemoryUpdates now
            (applyKnowledgeTopics now s.topicIndex
              (effKnowledge r.triage.runAgents r.knowledge).topics)
            s.knowledgeUpdates (effMemory r.triage.runAgents r.memory).updates).1
          s.conflicts (effCritic r.triage.runAgents r.critic).conflicts).2 := rfl

lemma runBatchSuccess_decisionLog (now bn bl : Nat) (r : AgentResponses) (s : ProcState) :
    (runBatchSuccess now bn bl r s).decisionLog
      = (effKnowledge r.triage.runAgents r.knowledge).decisions ++ s.decisionLog := rfl

lemma runBatchSuccess_snapshot (now bn bl : Nat) (r : AgentResponses) (s : ProcState) :
    (runBatchSuccess now bn bl r s).latestAgentSnapshot
      = some (buildAgentSnapshot now bn r.triage.reasoning
          (selectedList r.triage.runAgents) (skippedList r.triage.runAgents)
          (effKnowledge r.triage.runAgents r.knowledge)
          (effStakeholder r.triage.runAgents r.stakeholder)
          (effMemory r.triage.runAgents r.memory)
          (effCritic r.triage.runAgents r.critic)
          r.coordinator r.triage) := rfl

lemma runBatchSuccess_queue (now bn bl : Nat) (r : AgentResponses) (s : ProcState) :
    (runBatchSuccess now bn bl r s).queue = s.queue := rfl

lemma runBatchSuccess_queued (now bn bl : Nat) (r : AgentResponses) (s : ProcState) :
    (runBatchSuccess now bn bl r s).status.queued = s.status.queued := rfl

lemma runBatchSuccess_processed (now bn bl : Nat) (r : AgentResponses) (s : ProcState) :
    (runBatchSuccess now bn bl r s).status.processed = s.status.processed + bl := rfl

lemma runBatchSuccess_batches (now bn bl : Nat) (r : AgentResponses) (s : ProcState) :
    (runBatchSuccess now bn bl r s).status.batches = bn := rfl

lemma runBatchSuccess_errors (now bn bl : Nat) (r : AgentResponses) (s : ProcState) :
    (runBatchSuccess now bn bl r s).status.errors = s.status.errors := rfl

lemma runBatchSuccess_phase (now bn bl : Nat) (r : AgentResponses) (s : ProcState) :
    (runBatchSuccess now bn bl r s).status.status = s.status.status := rfl

lemma runBatch_success_eq (now : Nat) (s : ProcState) (r : AgentResponses)
    (h : s.queue ≠ []) :
    runBatch now s (BatchStep.success r)
      = finishBatch now (runBatchSuccess now (s.status.batches + 1)
          (s.queue.take BATCH_SIZE).length r
          { s with
            queue := s.queue.drop BATCH_SIZE
            status := { s.status with
              queued := (s.queue.drop BATCH_SIZE).length
              lastBatchAt := some now } }) := by
  simp [runBatch, h]

lemma runBatch_failure_eq (now : Nat) (s : ProcState) (h : s.queue ≠ []) :
    runBatch now s BatchStep.failure
      = finishBatch now
          { s with
            queue := s.queue.drop BATCH_SIZE
            status := { s.status with
              queued := (s.queue.drop BATCH_SIZE).length
              lastBatchAt := some now
              errors := s.status.errors + 1 } } := by
  simp [runBatch, h]

lemma take_length_add_drop_length (l : List EmailRecord) (n : Nat) :
    (l.take n).length + (l.drop n).length = l.length := by
  simp [List.length_take, List.length_drop]
  omega

lemma runBatch_success_inv (now : Nat) (s : ProcState) (r : AgentResponses)
    (h : s.status.queued = s.queue.length) :
    (runBatch now s (BatchStep.success r)).status.queued
        + (runBatch now s (BatchStep.success r)).status.processed
      = s.status.queued + s.status.processed ∧
    (runBatch now s (BatchStep.success r)).status.queued
      = (runBatch now s (BatchStep.success r)).queue.length := by
  by_cases hq : s.queue = []
  · constructor
    · simp [runBatch, hq]
    · simp [runBatch, hq, h]
  · rw [runBatch_success_eq now s r hq]
    rw [finishBatch_queued, finishBatch_processed, finishBatch_queue]
    rw [runBatchSuccess_queued, runBatchSuccess_processed, runBatchSuccess_queue]
    constructor
    · have := take_length_add_drop_length s.queue BATCH_SIZE
      simp only []
      omega
    · rfl

lemma runBatches_success_inv (now : Nat) (s : ProcState) (rs : List AgentResponses)
    (h : s.status.queued = s.queue.length) :
    (runBatches now s (rs.map BatchStep.success)).status.queued
        + (runBatches now s (rs.map BatchStep.success)).status.processed
      = s.status.queued + s.status.processed ∧
    (runBatches now s (rs.map BatchStep.success)).status.queued
      = (runBatches now s (rs.map BatchStep.success)).queue.length := by
  induction rs generalizing s with
  | nil => exact ⟨rfl, h⟩
  | cons r rs ih =>
      have step := runBatch_success_inv now s r h
      have rest := ih (runBatch now s (BatchStep.success r)) step.2
      refine ⟨?_, rest.2⟩
      calc (runBatches now s ((r :: rs).map BatchStep.success)).status.queued
            + (runBatches now s ((r :: rs).map BatchStep.success)).status.processed
          = (runBatch now s (BatchStep.success r)).status.queued
            + (runBatch now s (BatchStep.success r)).status.processed := rest.1
        _ = s.status.queued + s.status.processed := step.1

lemma selectedList_contains_knowledge (sel : RunAgents) :
    (selectedList sel).contains knowledgeStage = sel.knowledge := by
  obtain ⟨k, st, m, c⟩ := sel
  cases k <;> cases st <;> cases m <;> cases c <;> decide

lemma selectedList_contains_stakeholder (sel : RunAgents) :
    (selectedList sel).contains stakeholderStage = sel.stakeholder := by
  obtain ⟨k, st, m, c⟩ := sel
  cases k <;> cases st <;> cases m <;> cases c <;> decide

lemma selectedList_contains_memory (sel : RunAgents) :
    (selectedList sel).contains memoryStage = sel.memory := by
  obtain ⟨k, st, m, c⟩ := sel
  cases k <;> cases st <;> cases m <;> cases c <;> decide

lemma selectedList_contains_critic (sel : RunAgents) :
    (selectedList sel).contains criticStage = sel.critic := by
  obtain ⟨k, st, m, c⟩ := sel
  cases k <;> cases st <;> cases m <;> cases c <;> decide

lemma collectRows_full (limit : Nat) (rows : List CsvRow) (acc : List EmailRecord)
    (h : limit ≤ acc.length) :
    rows.foldl (fun a row => if a.length < limit then a ++ [rowToRecord row] else a) acc
      = acc := by
  induction rows with
  | nil => rfl
  | cons row rows ih =>
      rw [List.foldl_cons, if_neg (by omega)]
      exact ih

lemma collectRows_go (limit : Nat) (rows : List CsvRow) (acc : List EmailRecord)
    (h : acc.length ≤ limit) :
    rows.foldl (fun a row => if a.length < limit then a ++ [rowToRecord row] else a) acc
      = acc ++ (rows.take (limit - acc.length)).map rowToRecord := by
  induction rows generalizing acc with
  | nil => simp
  | cons row rows ih =>
      by_cases hlt : acc.length < limit
      · rw [List.foldl_cons, if_pos hlt]
        rw [ih (acc ++ [rowToRecord row]) (by simp; omega)]
        have hpos : limit - acc.length = (limit - (acc ++ [rowToRecord row]).length) + 1 := by
          simp
          omega
        rw [hpos, List.take_succ_cons, List.map_cons]
        simp
      · have heq : acc.length = limit := by omega
        rw [List.foldl_cons, if_neg hlt, collectRows_full limit rows acc (by omega)]
        simp [heq]

lemma collectRows_eq_take (limit : Nat) (rows : List CsvRow) :
    collectRows limit rows = (rows.take limit).map rowToRecord := by
  unfold collectRows
  rw [collectRows_go limit rows [] (by simp)]
  simp

lemma snapshotAgentStatus_knowledge (now bn : Nat) (tr : String) (selA skA : List String)
    (k : KnowledgeOutput) (st : StakeholderOutput) (m : MemoryOutput)
    (c : CriticOutput) (co : CoordinatorOutput) (t : TriageOutput) :
    snapshotAgentStatus (buildAgentSnapshot now bn tr selA skA k st m c co t) knowledgeLabel
      = some (if selA.contains knowledgeStage then AgentStatus.ran
              else AgentStatus.skipped) := by
  simp [snapshotAgentStatus, buildAgentSnapshot, knowledgeLabel, List.find?_cons]

lemma snapshotAgentStatus_stakeholder (now bn : Nat) (tr : String) (selA skA : List String)
    (k : KnowledgeOutput) (st : StakeholderOutput) (m : MemoryOutput)
    (c : CriticOutput) (co : CoordinatorOutput) (t : TriageOutput) :
    snapshotAgentStatus (buildAgentSnapshot now bn tr selA skA k st m c co t)
        stakeholderLabel
      = some (if selA.contains stakeholderStage then AgentStatus.ran
              else AgentStatus.skipped) := by
  simp [snapshotAgentStatus, buildAgentSnapshot, stakeholderLabel, List.find?_cons]

lemma snapshotAgentStatus_memory (now bn : Nat) (tr : String) (selA skA : List String)
    (k : KnowledgeOutput) (st : StakeholderOutput) (m : MemoryOutput)
    (c : CriticOutput) (co : CoordinatorOutput) (t : TriageOutput) :
    snapshotAgentStatus (buildAgentSnapshot now bn tr selA skA k st m c co t) memoryLabel
      = some (if selA.contains memoryStage then AgentStatus.ran
              else AgentStatus.skipped) := by
  simp [snapshotAgentStatus, buildAgentSnapshot, memoryLabel, List.find?_cons]

lemma snapshotAgentStatus_critic (now bn : Nat) (tr : String) (selA skA : List String)
    (k : KnowledgeOutput) (st : StakeholderOutput) (m : MemoryOutput)
    (c : CriticOutput) (co : CoordinatorOutput) (t : TriageOutput) :
    snapshotAgentStatus (buildAgentSnapshot now bn tr selA skA k st m c co t) criticLabel
      = some (if selA.contains criticStage then
                (if c.conflicts.length > 0 then AgentStatus.conflict else AgentStatus.ran)
              else AgentStatus.skipped) := by
  simp [snapshotAgentStatus, buildAgentSnapshot, criticLabel, List.find?_cons]

/-- C4: calling startRun() while the phase is already running is an
idempotent no-op — it returns the current status unchanged and leaves the
whole state (queue, people/topic/conflict indexes, logs, counters)
untouched. -/
theorem startProcessing_noop_when_running (now : Nat) (s : ProcState)
    (load : Except String (List EmailRecord)) (stp : BatchStep)
    (h : s.status.status = Phase.running) :
    startProcessing now s load stp = (s, s.status) := by
  simp [startProcessing, getStatus, h]

/-- C4 witness: the no-op at a concrete running state. -/
theorem startProcessing_noop_when_running_witness :
    startProcessing 0 runningState (Except.ok ([] : List EmailRecord)) BatchStep.failure
      = (runningState, runningState.status) :=
  startProcessing_noop_when_running 0 runningState (Except.ok []) BatchStep.failure
    (by decide)

/-- C5: a knowledge-change event overwrites (or creates) the topic entry
wholesale, with confidence 0.4 for conflict, 0.75 for new, 0.6 for
update, flags derived from the change type, timestamp refreshed, and the
event prepended to the change log; two events for the same key in
sequence leave the store in the second event's state. -/
theorem memory_update_overwrites_wholesale (now : Nat) (ti : List TopicIndexEntry)
    (ku : List MemoryUpdate) (n1 n2 : MemoryUpdate) (h : n1.topic = n2.topic) :
    topicFind (applyMemoryUpdates now ti ku [n1]).1 n1.topic
        = some (memoryEntry now n1) ∧
    (applyMemoryUpdates now ti ku [n1]).2 = n1 :: ku ∧
    topicFind (applyMemoryUpdates now ti ku [n1, n2]).1 n2.topic
        = some (memoryEntry now n2) ∧
    (applyMemoryUpdates now ti ku [n1, n2]).2 = n2 :: n1 :: ku ∧
    (∀ u : MemoryUpdate,
      (memoryEntry now u).latestSummary = u.summary ∧
      (memoryEntry now u).lastUpdatedAt = now ∧
      ((memoryEntry now u).isNew = true ↔ u.changeType = ChangeType.new) ∧
      ((memoryEntry now u).isConflicting = true ↔ u.changeType = ChangeType.conflict) ∧
      (u.changeType = ChangeType.conflict → (memoryEntry now u).confidence = mkRat 2 5) ∧
      (u.changeType = ChangeType.new → (memoryEntry now u).confidence = mkRat 3 4) ∧
      (u.changeType = ChangeType.update → (memoryEntry now u).confidence = mkRat 3 5)) := by
  refine ⟨?_, rfl, ?_, rfl, ?_⟩
  · exact topicFind_topicSet_self ti (memoryEntry now n1)
  · exact topicFind_topicSet_self (topicSet ti (memoryEntry now n1)) (memoryEntry now n2)
  · intro u
    refine ⟨rfl, rfl, ?_, ?_, ?_, ?_, ?_⟩ <;>
      cases hu : u.changeType <;> simp [memoryEntry, hu]

/-- C5 witness: two concrete events for the key of `n1Update`. -/
theorem memory_update_overwrites_wholesale_witness :
    topicFind (applyMemoryUpdates 0 [] [] [n1Update, n2Update]).1 n2Update.topic
      = some (memoryEntry 0 n2Update) :=
  (memory_update_overwrites_wholesale 0 [] [] n1Update n2Update (by decide)).2.2.1

/-- C6: every audit-reported conflict is prepended to the conflict log;
when the topic key exists its entry's isConflicting flag is set, and when
the key is absent the topic index is left completely unchanged. -/
theorem audit_conflict_logged_and_flagged (ti : List TopicIndexEntry)
    (cl : List Conflict) (c : CriticConflict) :
    (applyCriticConflicts ti cl [c]).2
        = { topic := c.topic, description := c.description } :: cl ∧
    (topicFind ti c.topic = none → (applyCriticConflicts ti cl [c]).1 = ti) ∧
    (∀ x, topicFind ti c.topic = some x →
      topicFind (applyCriticConflicts ti cl [c]).1 c.topic
          = some { x with isConflicting := true } ∧
      (∀ u, u ≠ c.topic →
        topicFind (applyCriticConflicts ti cl [c]).1 u = topicFind ti u)) := by
  refine ⟨rfl, ?_, ?_⟩
  · intro h
    exact markConflict_of_absent ti c.topic h
  · intro x hx
    exact ⟨topicFind_markConflict_self ti c.topic x hx,
      fun u hu => topicFind_markConflict_ne ti c.topic u hu⟩

/-- C9: the record reader returns the first `limit` records of the source
in source order — never more than `limit`, however large the source — and
rejects with the stream's error on an I/O failure. -/
theorem readFirstN_bounded_prefix (src : Except String (List CsvRow)) (limit : Nat) :
    (∀ rows, src = Except.ok rows →
      readFirstNRecords src limit = Except.ok ((rows.take limit).map rowToRecord) ∧
      ((rows.take limit).map rowToRecord).length ≤ limit) ∧
    (∀ e, src = Except.error e → readFirstNRecords src limit = Except.error e) := by
  constructor
  · intro rows hrows
    subst hrows
    constructor
    · simp [readFirstNRecords, Except.map, collectRows_eq_take]
    · simp [List.length_take]
  · intro e he
    subst he
    rfl

/-- C1 counterexample: a run over one loaded record whose only batch
fails ends with queued + processed = 0, not 1 — a failed batch consumes
its records without counting them as processed, so the stated sum breaks
during and after failed batches. -/
theorem queued_processed_sum_fails_after_failed_batch :
    oneRecord.length = 1 ∧
    failedRunState.status.queued + failedRunState.status.processed = 0 ∧
    failedRunState.status.queued + failedRunState.status.processed ≠ oneRecord.length := by
  decide

/-- C1 amended: in every run all of whose executed batches succeed,
queued + processed equals the number of records loaded at start at every
observation point after loading (after the synchronous first batch and
after every further batch). -/
theorem queued_processed_sum_invariant (now : Nat) (records : List EmailRecord)
    (r0 : AgentResponses) (rs : List AgentResponses) :
    (runBatches now
        (startProcessing now initialState (Except.ok records) (BatchStep.success r0)).1
        (rs.map BatchStep.success)).status.queued
      + (runBatches now
        (startProcessing now initialState (Except.ok records) (BatchStep.success r0)).1
        (rs.map BatchStep.success)).status.processed
      = records.length := by
  have key : (startProcessing now initialState (Except.ok records)
      (BatchStep.success r0)).1
      = runBatch now (startedState now records) (BatchStep.success r0) := rfl
  rw [key]
  have step := runBatch_success_inv now (startedState now records) r0 rfl
  have rest := runBatches_success_inv now
    (runBatch now (startedState now records) (BatchStep.success r0)) rs step.2
  rw [rest.1, step.1]
  rfl

lemma runBatch_success_messageCount (now : Nat) (s : ProcState) (r : AgentResponses)
    (em : String) (hem : em ≠ "") (hq : s.queue ≠ []) :
    messageCountOf (runBatch now s (BatchStep.success r)).peopleIndex em
      = messageCountOf s.peopleIndex em + occurrencesIn r.ingestion em := by
  rw [runBatch_success_eq now s r hq, finishBatch_peopleIndex, runBatchSuccess_peopleIndex]
  rw [applyStakeholders_count]
  exact applyIngestion_count _ _ _ hem

/-- C2 counterexample: one successfully processed batch whose single
parsed message has the identifier `a` both as sender and as its only
recipient yields messageCount 2 for `a`, while `a` appears in exactly one
parsed message — the index counts occurrences, not messages. -/
theorem messageCount_not_number_of_messages :
    messageCountOf c2State.peopleIndex aEmail = 2 ∧
    spec_messagesMentioning c2resp.ingestion aEmail = 1 ∧
    messageCountOf c2State.peopleIndex aEmail
      ≠ spec_messagesMentioning c2resp.ingestion aEmail := by
  decide

/-- C2 amended: for every identifier (other than the skipped empty
string), the messageCount stored after a sequence of successful batches
exceeds its previous value by the total number of occurrences of that
identifier among the sender-plus-recipient fields of the batches' parsed
messages, counted with multiplicity (a message listing the identifier
twice contributes two). -/
theorem messageCount_counts_occurrences (now : Nat) (s : ProcState)
    (rsteps : List AgentResponses) (em : String) (hem : em ≠ "")
    (hq : (rsteps.length - 1) * BATCH_SIZE < s.queue.length) :
    messageCountOf (runBatches now s (rsteps.map BatchStep.success)).peopleIndex em
      = messageCountOf s.peopleIndex em
        + (rsteps.map (fun r => occurrencesIn r.ingestion em)).sum := by
  induction rsteps generalizing s with
  | nil => simp [runBatches]
  | cons r rest ih =>
      have hne : s.queue ≠ [] := by
        intro hnil
        rw [hnil] at hq
        simp at hq
      have hstep := runBatch_success_messageCount now s r em hem hne
      have hqueue : (runBatch now s (BatchStep.success r)).queue
          = s.queue.drop BATCH_SIZE := by
        rw [runBatch_success_eq now s r hne, finishBatch_queue, runBatchSuccess_queue]
      cases rest with
      | nil =>
          simp only [List.map_cons, List.map_nil, runBatches, List.foldl_cons,
            List.foldl_nil, List.sum_cons, List.sum_nil]
          rw [hstep]
          omega
      | cons r2 rest2 =>
          have hq2 : ((r2 :: rest2).length - 1) * BATCH_SIZE
              < (runBatch now s (BatchStep.success r)).queue.length := by
            rw [hqueue, List.length_drop]
            simp only [List.length_cons] at hq ⊢
            simp only [BATCH_SIZE] at hq ⊢
            omega
          have hrest := ih (runBatch now s (BatchStep.success r)) hq2
          simp only [List.map_cons, runBatches, List.foldl_cons, List.sum_cons]
          simp only [List.map_cons, runBatches, List.foldl_cons] at hrest
          rw [hrest, hstep]
          simp only [List.sum_cons]
          omega

/-- C2 amended witness: one successful batch over a one-record queue
applies its two occurrences of `a`. -/
theorem messageCount_counts_occurrences_witness :
    messageCountOf (runBatches 0 midRunState ([c2resp].map BatchStep.success)).peopleIndex
        aEmail
      = messageCountOf midRunState.peopleIndex aEmail
        + ([c2resp].map (fun r => occurrencesIn r.ingestion aEmail)).sum :=
  messageCount_counts_occurrences 0 midRunState [c2resp] aEmail (by decide) (by decide)

lemma runBatch_drained (now : Nat) (t : ProcState) (stp : BatchStep)
    (h : (runBatch now t stp).queue = []) :
    (runBatch now t stp).status.status = Phase.completed := by
  by_cases hq : t.queue = []
  · simp [runBatch, hq]
  · cases stp with
    | success r =>
        rw [runBatch_success_eq now t r hq] at h ⊢
        rw [finishBatch_queue] at h
        exact finishBatch_of_empty now _ h
    | failure =>
        rw [runBatch_failure_eq now t hq] at h ⊢
        rw [finishBatch_queue] at h
        exact finishBatch_of_empty now _ h

lemma startProcessing_source_error (now : Nat) (t : ProcState) (msg : String)
    (stp : BatchStep) (h : t.status.status ≠ Phase.running) :
    (startProcessing now t (Except.error msg) stp).1.status.status = Phase.error ∧
    (startProcessing now t (Except.error msg) stp).1.status.message = some msg ∧
    (startProcessing now t (Except.error msg) stp).1.timerActive = false := by
  simp [startProcessing, h]

/-- C3: a capability or schema-validation failure inside a batch aborts
that batch leaving every index, every log, the recommendations and the
snapshot exactly as before, increments errorCount by exactly 1, stamps no
batch number and counts nothing processed; the run keeps going (phase
stays running while records remain, so the scheduler's next tick fires),
any batch invocation that ends with an empty queue puts the run in phase
completed, and only a record-source failure before any batch is run-fatal
(phase error, scheduler halted). -/
theorem failed_batch_aborts_cleanly (now : Nat) (s : ProcState)
    (hq : s.queue ≠ []) (hrun : s.status.status = Phase.running) :
    (runBatch now s BatchStep.failure).peopleIndex = s.peopleIndex ∧
    (runBatch now s BatchStep.failure).topicIndex = s.topicIndex ∧
    (runBatch now s BatchStep.failure).conflicts = s.conflicts ∧
    (runBatch now s BatchStep.failure).knowledgeUpdates = s.knowledgeUpdates ∧
    (runBatch now s BatchStep.failure).decisionLog = s.decisionLog ∧
    (runBatch now s BatchStep.failure).informationFlow = s.informationFlow ∧
    (runBatch now s BatchStep.failure).recommendations = s.recommendations ∧
    (runBatch now s BatchStep.failure).latestAgentSnapshot = s.latestAgentSnapshot ∧
    (runBatch now s BatchStep.failure).status.errors = s.status.errors + 1 ∧
    (runBatch now s BatchStep.failure).status.processed = s.status.processed ∧
    (runBatch now s BatchStep.failure).status.batches = s.status.batches ∧
    (BATCH_SIZE < s.queue.length →
      (runBatch now s BatchStep.failure).status.status = Phase.running ∧
      (runBatch now s BatchStep.failure).timerActive = s.timerActive) ∧
    (s.queue.length ≤ BATCH_SIZE →
      (runBatch now s BatchStep.failure).status.status = Phase.completed) ∧
    (∀ t : ProcState, ∀ stp : BatchStep, (runBatch now t stp).queue = [] →
      (runBatch now t stp).status.status = Phase.completed) ∧
    (∀ t : ProcState, ∀ msg : String, ∀ stp : BatchStep,
      t.status.status ≠ Phase.running →
      (startProcessing now t (Except.error msg) stp).1.status.status = Phase.error ∧
      (startProcessing now t (Except.error msg) stp).1.timerActive = false) := by
  rw [runBatch_failure_eq now s hq]
  rw [finishBatch_peopleIndex, finishBatch_topicIndex, finishBatch_conflicts,
    finishBatch_knowledgeUpdates, finishBatch_decisionLog, finishBatch_informationFlow,
    finishBatch_recommendations, finishBatch_snapshot, finishBatch_errors,
    finishBatch_processed, finishBatch_batches]
  refine ⟨rfl, rfl, rfl, rfl, rfl, rfl, rfl, rfl, rfl, rfl, rfl, ?_, ?_, ?_, ?_⟩
  · intro hlong
    have hdrop : s.queue.drop BATCH_SIZE ≠ [] := by
      intro hnil
      have := List.drop_eq_nil_iff.mp hnil
      omega
    constructor
    · rw [finishBatch_of_ne]
      · exact hrun
      · exact hdrop
    · rw [finishBatch_of_ne]
      · exact hdrop
  · intro hshort
    apply finishBatch_of_empty
    simp only []
    rw [List.drop_eq_nil_iff]
    exact hshort
  · exact fun t stp h => runBatch_drained now t stp h
  · intro t msg stp h
    have := startProcessing_source_error now t msg stp h
    exact ⟨this.1, this.2.2⟩

/-- C3 witness: a failed batch on a concrete running state with one
queued record (and the drained-queue completion at that input). -/
theorem failed_batch_aborts_cleanly_witness :
    (runBatch 0 midRunState BatchStep.failure).peopleIndex = midRunState.peopleIndex ∧
    (runBatch 0 midRunState BatchStep.failure).status.errors
      = midRunState.status.errors + 1 ∧
    (runBatch 0 midRunState BatchStep.failure).status.status = Phase.completed :=
  ⟨(failed_batch_aborts_cleanly 0 midRunState (by decide) (by decide)).1,
   (failed_batch_aborts_cleanly 0 midRunState (by decide) (by decide)).2.2.2.2.2.2.2.2.1,
   (failed_batch_aborts_cleanly 0 midRunState (by decide)
      (by decide)).2.2.2.2.2.2.2.2.2.2.2.2.1 (by decide)⟩

/-- C8: every executed batch pops up to BATCH_SIZE (10) records from the
front of the queue and, when it succeeds, is stamped the 1-based
monotonic batch number batches + 1 and counts exactly the popped slice as
processed; concretely, a failure-free run over 23 loaded records yields
batches of sizes 10, 10 and 3 (queue 13, 3, 0), ends with batchCount 3
and phase completed. -/
theorem batch_pops_front_and_scenarioA (now : Nat) (s : ProcState) (stp : BatchStep)
    (hq : s.queue ≠ []) :
    (runBatch now s stp).queue = s.queue.drop BATCH_SIZE ∧
    (runBatch now s stp).status.queued = (s.queue.drop BATCH_SIZE).length ∧
    (∀ r, stp = BatchStep.success r →
      (runBatch now s stp).status.batches = s.status.batches + 1 ∧
      (runBatch now s stp).status.processed
        = s.status.processed + (s.queue.take BATCH_SIZE).length) ∧
    BATCH_SIZE = 10 ∧ records23.length = 23 ∧
    scenarioA1.status.batches = 1 ∧ scenarioA1.status.processed = 10 ∧
    scenarioA1.status.queued = 13 ∧ scenarioA1.status.status = Phase.running ∧
    scenarioA2.status.batches = 2 ∧ scenarioA2.status.processed = 20 ∧
    scenarioA2.status.queued = 3 ∧ scenarioA2.status.status = Phase.running ∧
    scenarioA3.status.batches = 3 ∧ scenarioA3.status.processed = 23 ∧
    scenarioA3.status.queued = 0 ∧ scenarioA3.status.status = Phase.completed := by
  refine ⟨?_, ?_, ?_, by decide, by decide, by decide, by decide, by decide, by decide,
    by decide, by decide, by decide, by decide, by decide, by decide, by decide,
    by decide⟩
  · cases stp with
    | success r =>
        rw [runBatch_success_eq now s r hq, finishBatch_queue, runBatchSuccess_queue]
    | failure =>
        rw [runBatch_failure_eq now s hq, finishBatch_queue]
  · cases stp with
    | success r =>
        rw [runBatch_success_eq now s r hq, finishBatch_queued, runBatchSuccess_queued]
    | failure =>
        rw [runBatch_failure_eq now s hq, finishBatch_queued]
  · intro r hr
    subst hr
    rw [runBatch_success_eq now s r hq, finishBatch_batches, finishBatch_processed,
      runBatchSuccess_batches, runBatchSuccess_processed]
    exact ⟨rfl, rfl⟩

/-- C8 witness: the popping clauses at a concrete mid-run state with
twelve queued records. -/
theorem batch_pops_front_and_scenarioA_witness :
    (runBatch 0 midRunState12 (BatchStep.success noopResponses)).queue
        = midRunState12.queue.drop BATCH_SIZE ∧
    (runBatch 0 midRunState12 (BatchStep.success noopResponses)).status.batches
        = midRunState12.status.batches + 1 ∧
    scenarioA3.status.batches = 3 :=
  ⟨(batch_pops_front_and_scenarioA 0 midRunState12 (BatchStep.success noopResponses)
      (by decide)).1,
   ((batch_pops_front_and_scenarioA 0 midRunState12 (BatchStep.success noopResponses)
      (by decide)).2.2.1 noopResponses rfl).1,
   (batch_pops_front_and_scenarioA 0 midRunState12 (BatchStep.success noopResponses)
      (by decide)).2.2.2.2.2.2.2.2.2.2.2.2.2.1⟩

/-- C7: a stage whose triage flag is false appears in the run snapshot
with status skipped, contributes its documented empty default (empty
topic/decision/fact lists, empty stakeholder list, empty update list,
empty conflict list), and adds nothing attributable to it to any index or
log — the post-batch decision log, people index, change log and conflict
log reduce to what the other stages alone produce, and replacing the
skipped stage's would-be response changes nothing. -/
theorem skipped_stage_contributes_nothing (now : Nat) (s : ProcState)
    (r : AgentResponses) (hq : s.queue ≠ []) :
    (r.triage.runAgents.knowledge = false →
      (runBatch now s (BatchStep.success r)).latestAgentSnapshot.map
          (fun sn => snapshotAgentStatus sn knowledgeLabel)
        = some (some AgentStatus.skipped) ∧
      effKnowledge r.triage.runAgents r.knowledge
        = { topics := [], decisions := [], facts := [] } ∧
      (runBatch now s (BatchStep.success r)).decisionLog = s.decisionLog ∧
      (runBatch now s (BatchStep.success r)).topicIndex
        = (applyCriticConflicts
            (applyMemoryUpdates now s.topicIndex s.knowledgeUpdates
              (effMemory r.triage.runAgents r.memory).updates).1
            s.conflicts (effCritic r.triage.runAgents r.critic).conflicts).1 ∧
      (∀ k, runBatch now s (BatchStep.success { r with knowledge := k })
          = runBatch now s (BatchStep.success r))) ∧
    (r.triage.runAgents.stakeholder = false →
      (runBatch now s (BatchStep.success r)).latestAgentSnapshot.map
          (fun sn => snapshotAgentStatus sn stakeholderLabel)
        = some (some AgentStatus.skipped) ∧
      effStakeholder r.triage.runAgents r.stakeholder = { stakeholders := [] } ∧
      (runBatch now s (BatchStep.success r)).peopleIndex
        = applyIngestion s.peopleIndex r.ingestion ∧
      (∀ st, runBatch now s (BatchStep.success { r with stakeholder := st })
          = runBatch now s (BatchStep.success r))) ∧
    (r.triage.runAgents.memory = false →
      (runBatch now s (BatchStep.success r)).latestAgentSnapshot.map
          (fun sn => snapshotAgentStatus sn memoryLabel)
        = some (some AgentStatus.skipped) ∧
      effMemory r.triage.runAgents r.memory = { updates := [] } ∧
      (runBatch now s (BatchStep.success r)).knowledgeUpdates = s.knowledgeUpdates ∧
      (∀ m, runBatch now s (BatchStep.success { r with memory := m })
          = runBatch now s (BatchStep.success r))) ∧
    (r.triage.runAgents.critic = false →
      (runBatch now s (BatchStep.success r)).latestAgentSnapshot.map
          (fun sn => snapshotAgentStatus sn criticLabel)
        = some (some AgentStatus.skipped) ∧
      effCritic r.triage.runAgents r.critic = { conflicts := [] } ∧
      (runBatch now s (BatchStep.success r)).conflicts = s.conflicts ∧
      (∀ c, runBatch now s (BatchStep.success { r with critic := c })
          = runBatch now s (BatchStep.success r))) := by
  refine ⟨?_, ?_, ?_, ?_⟩
  · intro h
    refine ⟨?_, ?_, ?_, ?_, ?_⟩
    · rw [runBatch_success_eq now s r hq, finishBatch_snapshot, runBatchSuccess_snapshot]
      simp only [Option.map_some']
      rw [snapshotAgentStatus_knowledge, selectedList_contains_knowledge, h]
      rfl
    · simp [effKnowledge, h]
    · rw [runBatch_success_eq now s r hq, finishBatch_decisionLog,
        runBatchSuccess_decisionLog]
      simp [effKnowledge, h]
    · rw [runBatch_success_eq now s r hq, finishBatch_topicIndex,
        runBatchSuccess_topicIndex]
      simp [effKnowledge, h, applyKnowledgeTopics]
    · intro k
      rw [runBatch_success_eq now s _ hq, runBatch_success_eq now s r hq]
      simp [runBatchSuccess, effKnowledge, h]
  · intro h
    refine ⟨?_, ?_, ?_, ?_⟩
    · rw [runBatch_success_eq now s r hq, finishBatch_snapshot, runBatchSuccess_snapshot]
      simp only [Option.map_some']
      rw [snapshotAgentStatus_stakeholder, selectedList_contains_stakeholder, h]
      rfl
    · simp [effStakeholder, h]
    · rw [runBatch_success_eq now s r hq, finishBatch_peopleIndex,
        runBatchSuccess_peopleIndex]
      simp [effStakeholder, h, applyStakeholders]
    · intro st
      rw [runBatch_success_eq now s _ hq, runBatch_success_eq now s r hq]
      simp [runBatchSuccess, effStakeholder, h]
  · intro h
    refine ⟨?_, ?_, ?_, ?_⟩
    · rw [runBatch_success_eq now s r hq, finishBatch_snapshot, runBatchSuccess_snapshot]
      simp only [Option.map_some']
      rw [snapshotAgentStatus_memory, selectedList_contains_memory, h]
      rfl
    · simp [effMemory, h]
    · rw [runBatch_success_eq now s r hq, finishBatch_knowledgeUpdates,
        runBatchSuccess_knowledgeUpdates]
      simp [effMemory, h, applyMemoryUpdates]
    · intro m
      rw [runBatch_success_eq now s _ hq, runBatch_success_eq now s r hq]
      simp [runBatchSuccess, effMemory, h]
  · intro h
    refine ⟨?_, ?_, ?_, ?_⟩
    · rw [runBatch_success_eq now s r hq, finishBatch_snapshot, runBatchSuccess_snapshot]
      simp only [Option.map_some']
      rw [snapshotAgentStatus_critic, selectedList_contains_critic, h]
      rfl
    · simp [effCritic, h]
    · rw [runBatch_success_eq now s r hq, finishBatch_conflicts,
        runBatchSuccess_conflicts]
      simp [effCritic, h, applyCriticConflicts]
    · intro c
      rw [runBatch_success_eq now s _ hq, runBatch_success_eq now s r hq]
      simp [runBatchSuccess, effCritic, h]

/-- C7 witness: an all-stages-skipped batch at a concrete one-record
state shows the Knowledge stage skipped with an unchanged decision log
and the Critic stage skipped with an unchanged conflict log. -/
theorem skipped_stage_contributes_nothing_witness :
    ((runBatch 0 midRunState (BatchStep.success noopResponses)).latestAgentSnapshot.map
        (fun sn => snapshotAgentStatus sn knowledgeLabel)
      = some (some AgentStatus.skipped)) ∧
    (runBatch 0 midRunState (BatchStep.success noopResponses)).decisionLog
      = midRunState.decisionLog ∧
    (runBatch 0 midRunState (BatchStep.success noopResponses)).conflicts
      = midRunState.conflicts :=
  ⟨((skipped_stage_contributes_nothing 0 midRunState noopResponses (by decide)).1
      (by decide)).1,
   ((skipped_stage_contributes_nothing 0 midRunState noopResponses (by decide)).1
      (by decide)).2.2.1,
   ((skipped_stage_contributes_nothing 0 midRunState noopResponses (by decide)).2.2.2
      (by decide)).2.2.1⟩

/-- C10: a stakeholder whose identifier is neither in the people index
nor among the batch's parsed senders/recipients is created by
output-application with messageCount 0 (not 1) and inferredRole equal to
the declared importance, and that zero-count entry is visible through
getPeople(). -/
theorem stakeholder_only_entry_has_zero_count (now : Nat) (s : ProcState)
    (r : AgentResponses) (em : String) (st : StakeholderEntry)
    (hq : s.queue ≠ [])
    (hsel : r.triage.runAgents.stakeholder = true)
    (habs : peopleFind s.peopleIndex em = none)
    (hout : em ∉ r.ingestion.flatMap participants)
    (hfil : r.stakeholder.stakeholders.filter (fun x => x.email = em) = [st]) :
    peopleFind (runBatch now s (BatchStep.success r)).peopleIndex em
      = some { email := em, name := none, inferredRole := some st.importance,
               messageCount := 0, topics := [] } ∧
    ({ email := em, name := none, inferredRole := some st.importance,
       messageCount := 0, topics := [] } : PersonIndexEntry)
      ∈ getPeople (runBatch now s (BatchStep.success r)) := by
  have hfind : peopleFind (runBatch now s (BatchStep.success r)).peopleIndex em
      = some { email := em, name := none, inferredRole := some st.importance,
               messageCount := 0, topics := [] } := by
    rw [runBatch_success_eq now s r hq, finishBatch_peopleIndex,
      runBatchSuccess_peopleIndex]
    have heff : effStakeholder r.triage.runAgents r.stakeholder = r.stakeholder := by
      simp [effStakeholder, hsel]
    rw [heff]
    have habs' : peopleFind (applyIngestion s.peopleIndex r.ingestion) em = none := by
      rw [applyIngestion_find_not_mem _ _ _ hout]
      exact habs
    exact applyStakeholders_creates _ _ _ _ habs' hfil
  refine ⟨hfind, ?_⟩
  have hmem := peopleFind_mem hfind
  unfold getPeople
  rw [mem_sortByCountDesc]
  exact hmem

/-- C10 witness: the concrete stakeholder `bossEntry` reported for a
batch with no parsed messages. -/
theorem stakeholder_only_entry_has_zero_count_witness :
    peopleFind (runBatch 0 midRunState (BatchStep.success c10resp)).peopleIndex bossEmail
      = some { email := bossEmail, name := none,
               inferredRole := some bossEntry.importance,
               messageCount := 0, topics := [] } ∧
    ({ email := bossEmail, name := none, inferredRole := some bossEntry.importance,
       messageCount := 0, topics := [] } : PersonIndexEntry)
      ∈ getPeople (runBatch 0 midRunState (BatchStep.success c10resp)) :=
  stakeholder_only_entry_has_zero_count 0 midRunState c10resp bossEmail bossEntry
    (by decide) (by decide) (by decide) (by decide) (by decide)
